import Mathlib

/-!
Shallow embedding of the Go rules engine in `src/board.rs` (clockgo).

Modelling conventions, chosen to mirror the Rust source line by line:

* `uint` board coordinates are `Nat`; the grid `stones[x-1][y-1]` (a fixed
  25×25 array) is modelled as a function `Nat → Nat → Intersection` indexed
  directly by the 1-based coordinates `(x, y)`.  Grid indexing panics
  (coordinate 0 underflows, coordinate > 25 overflows the array) are modelled
  separately by `Board.play_checked`, which guards the very first grid access
  of `play` and returns `Except.error ()` where the Rust code would fail.
* `TreeSet<(uint,uint)>` is modelled as a strictly sorted (lexicographic)
  duplicate-free `List (Nat × Nat)`; iteration order of the model therefore
  coincides with `TreeSet` iteration order, which the source relies on
  (`iter().next()` picks the minimum).
* `SmallIntMap<Group>` is modelled as a list of key/value pairs strictly
  sorted by key; `keys()` iterates in increasing key order, as in the source.
* `DList<Move>` (used as a stack: `push`/`pop`/`back` all act on the same
  end) is modelled as a `List Move` whose head is the most recent move.
* `find_mut(..).unwrap()` on a key that is absent and the `unreachable!()`
  arms panic in the source; those code paths are unreachable for the states
  exercised here, and the model makes them total (no-op / default) with a
  comment at each site.
-/

namespace ClockGo

inductive Colour where
  | Black
  | White
  deriving DecidableEq, Repr

export Colour (Black White)

inductive Intersection where
  | Stone (colour : Colour) (gid : Nat)
  | Empty
  deriving DecidableEq, Repr

/-- Lexicographic strict order on coordinates, mirroring `Ord` on Rust
`(uint, uint)` tuples, which orders `TreeSet` iteration. -/
def coordLt (p q : Nat × Nat) : Bool :=
  p.1 < q.1 || (p.1 == q.1 && p.2 < q.2)

/-- Sorted-insert into a strictly sorted duplicate-free list, mirroring
`TreeSet::insert`. -/
def ssetInsert : List (Nat × Nat) → Nat × Nat → List (Nat × Nat)
  | [], c => [c]
  | a :: rest, c =>
    if a = c then a :: rest
    else if coordLt c a then c :: a :: rest
    else a :: ssetInsert rest c

/-- Removal from the set, mirroring `TreeSet::remove` (removes the element
if present; the list is duplicate-free). -/
def ssetRemove : List (Nat × Nat) → Nat × Nat → List (Nat × Nat)
  | [], _ => []
  | a :: rest, c => if a = c then rest else a :: ssetRemove rest c

/-- `Group` of `board.rs`: the stones of one chain and its recorded
liberties, both as sorted sets. -/
structure Group where
  stones : List (Nat × Nat)
  liberties : List (Nat × Nat)
  deriving DecidableEq, Repr

namespace Group

/-- `Group::new` -/
def new : Group := ⟨[], []⟩

/-- `Group::is_dead` -/
def is_dead (g : Group) : Bool := g.liberties.isEmpty

/-- `Group::add_stone` -/
def add_stone (g : Group) (x y : Nat) : Group :=
  { stones := ssetInsert g.stones (x, y), liberties := ssetRemove g.liberties (x, y) }

/-- `Group::add_liberty` -/
def add_liberty (g : Group) (x y : Nat) : Group :=
  { g with liberties := ssetInsert g.liberties (x, y) }

/-- `Group::remove_liberty` -/
def remove_liberty (g : Group) (x y : Nat) : Group :=
  { g with liberties := ssetRemove g.liberties (x, y) }

/-- `Group::absorb`: union both sets, then drop every liberty that is now
an owned stone (the source iterates the intersection and removes each
element; on sets this is exactly the filter below). -/
def absorb (g : Group) (other : Group) : Group :=
  let stones := other.stones.foldl ssetInsert g.stones
  let liberties := other.liberties.foldl ssetInsert g.liberties
  { stones := stones, liberties := liberties.filter (fun c => !stones.contains c) }

/-- `Group::stone_count` -/
def stone_count (g : Group) : Nat := g.stones.length

/-- `Group::liberty_count` -/
def liberty_count (g : Group) : Nat := g.liberties.length

/-- `Group::dismantle` -/
def dismantle (g : Group) : List (Nat × Nat) := g.stones

end Group

/-- `Vertex` of `board.rs`. -/
inductive Vertex where
  | Put (x y : Nat)
  | Pass
  deriving DecidableEq, Repr

/-- `Move` of `board.rs`: the `removed` list stores full copies of every
group captured by this move, in capture order. -/
structure Move where
  player : Colour
  move : Vertex
  removed : List Group
  deriving DecidableEq, Repr

/-- `SmallIntMap<Group>` model: key/value list strictly sorted by key. -/
def gmapInsert : List (Nat × Group) → Nat → Group → List (Nat × Group)
  | [], k, v => [(k, v)]
  | (k', v') :: rest, k, v =>
    if k' = k then (k, v) :: rest
    else if k < k' then (k, v) :: (k', v') :: rest
    else (k', v') :: gmapInsert rest k v

/-- `SmallIntMap::pop` / `remove`: drop the entry with the given key. -/
def gmapRemove : List (Nat × Group) → Nat → List (Nat × Group)
  | [], _ => []
  | (k', v') :: rest, k => if k' = k then rest else (k', v') :: gmapRemove rest k

/-- Lookup (`SmallIntMap::find`). -/
def gmapFind : List (Nat × Group) → Nat → Option Group
  | [], _ => none
  | (k', v') :: rest, k => if k' = k then some v' else gmapFind rest k

/-- Indexing `self.groups[gid]` / `find_mut(..).unwrap()`: the source panics
when the key is absent; all uses here are on present keys, and the model
returns the empty group in the impossible case. -/
def gmapGet (gs : List (Nat × Group)) (k : Nat) : Group :=
  (gmapFind gs k).getD Group.new

/-- In-place update through `find_mut(..).unwrap()`: the source panics when
the key is absent; the model leaves the map unchanged in that (unreachable)
case. -/
def gmapModify : List (Nat × Group) → Nat → (Group → Group) → List (Nat × Group)
  | [], _, _ => []
  | (k', v') :: rest, k, f =>
    if k' = k then (k', f v') :: rest else (k', v') :: gmapModify rest k f

/-- `static board_maxsize : uint = 25` -/
def board_maxsize : Nat := 25

/-- The `Board` struct.  `stones x y` models `stones[x-1][y-1]` (1-based
coordinates); `history`'s head is the most recently pushed move. -/
structure Board where
  stones : Nat → Nat → Intersection
  history : List Move
  groups : List (Nat × Group)
  size : Nat
  white_dead : Nat
  black_dead : Nat
  current_ko : Nat × Nat

namespace Board

/-- `Board::new` -/
def new : Board where
  stones := fun _ _ => .Empty
  history := []
  groups := []
  size := 19
  white_dead := 0
  black_dead := 0
  current_ko := (0, 0)

/-- Write one grid cell (`self.stones[x-1][y-1] = v`). -/
def setStone (b : Board) (x y : Nat) (v : Intersection) : Board :=
  { b with stones := fun a c => if a = x ∧ c = y then v else b.stones a c }

/-- `Board::get_current_ko` -/
def get_current_ko (b : Board) : Option (Nat × Nat) :=
  if b.current_ko = (0, 0) then none else some b.current_ko

/-- `Board::get_deads` : `(black_dead, white_dead)` -/
def get_deads (b : Board) : Nat × Nat := (b.black_dead, b.white_dead)

/-- `Board::clear`: clears history and groups and empties every cell of the
25×25 array; `size`, the two dead counters and `current_ko` are not
touched by the source. -/
def clear (b : Board) : Board :=
  { b with
    history := []
    groups := []
    stones := fun x y => if 1 ≤ x ∧ x ≤ board_maxsize ∧ 1 ≤ y ∧ y ≤ board_maxsize
      then .Empty else b.stones x y }

/-- `Board::resize` -/
def resize (b : Board) (newsize : Nat) : Bool × Board :=
  if newsize > 0 ∧ newsize ≤ board_maxsize then
    (true, { b.clear with size := newsize })
  else
    (false, b)

/-- `Board::loop_over_neighbours` as the list of visited coordinates, in
visit order: left, down, right, up (each guarded). -/
def neighbours (x y size : Nat) : List (Nat × Nat) :=
  (if x > 1 then [(x - 1, y)] else []) ++
  (if y > 1 then [(x, y - 1)] else []) ++
  (if x < size then [(x + 1, y)] else []) ++
  (if y < size then [(x, y + 1)] else [])

/-- The scanning loop of `Board::next_gid`: walk the keys in increasing
order, keeping `last`, and stop at the first gap. -/
def next_gid_go : Nat → List Nat → Nat
  | last, [] => last + 1
  | last, i :: rest => if i > last + 1 then last + 1 else next_gid_go i rest

/-- `Board::next_gid` -/
def next_gid (b : Board) : Nat :=
  if b.groups.isEmpty then 0 else next_gid_go 0 (b.groups.map Prod.fst)

/-- `Board::pass`: unconditionally push a `Pass` move; nothing else (in
particular `current_ko`) is touched. -/
def pass (b : Board) (player : Colour) : Board :=
  { b with history := ⟨player, .Pass, []⟩ :: b.history }

end Board

/-- `next_gid` as a function of the group table alone (the source method
only reads `self.groups`). -/
def next_gid_of (gs : List (Nat × Group)) : Nat :=
  if gs.isEmpty then 0 else Board.next_gid_go 0 (gs.map Prod.fst)

theorem ssetRemove_length_le (l : List (Nat × Nat)) (c : Nat × Nat) :
    (ssetRemove l c).length ≤ l.length := by
  induction l with
  | nil => simp [ssetRemove]
  | cons a rest ih =>
    simp only [ssetRemove]
    split
    · simp
    · simpa using Nat.succ_le_succ ih

theorem ssetRemove_length_lt (l : List (Nat × Nat)) (c : Nat × Nat) (h : c ∈ l) :
    (ssetRemove l c).length < l.length := by
  induction l with
  | nil => simp at h
  | cons a rest ih =>
    simp only [ssetRemove]
    split
    · simp
    · rename_i hne
      rcases List.mem_cons.mp h with h1 | h1
      · exact absurd h1.symm hne
      · simpa using Nat.succ_lt_succ (ih h1)

/-- One neighbour scan of `split_group`'s flood fill: a neighbour still in
`oldstones` is moved onto the worklist `to_loop`; otherwise, if the cell is
empty it becomes a liberty of the group being rebuilt. -/
def scan_nbrs (stones : Nat → Nat → Intersection) :
    List (Nat × Nat) → List (Nat × Nat) → List (Nat × Nat) → Group →
    List (Nat × Nat) × List (Nat × Nat) × Group
  | [], old, tl, g => (old, tl, g)
  | ab :: rest, old, tl, g =>
    if ab ∈ old then
      scan_nbrs stones rest (ssetRemove old ab) (ab :: tl) g
    else if stones ab.1 ab.2 = .Empty then
      scan_nbrs stones rest old tl (g.add_liberty ab.1 ab.2)
    else
      scan_nbrs stones rest old tl g

theorem scan_nbrs_length (stones : Nat → Nat → Intersection)
    (nbrs : List (Nat × Nat)) :
    ∀ old tl g, (scan_nbrs stones nbrs old tl g).1.length +
      (scan_nbrs stones nbrs old tl g).2.1.length ≤ old.length + tl.length := by
  induction nbrs with
  | nil => intro old tl g; simp [scan_nbrs]
  | cons ab rest ih =>
    intro old tl g
    simp only [scan_nbrs]
    split
    · rename_i hmem
      calc (scan_nbrs stones rest (ssetRemove old ab) (ab :: tl) g).1.length +
            (scan_nbrs stones rest (ssetRemove old ab) (ab :: tl) g).2.1.length
          ≤ (ssetRemove old ab).length + (ab :: tl).length := ih _ _ _
        _ ≤ old.length + tl.length := by
            have := ssetRemove_length_lt old ab hmem
            simp only [List.length_cons]
            omega
    · split
      · exact ih _ _ _
      · exact ih _ _ _

/-- The body of one iteration of the inner `while !to_loop.is_empty()` of
`split_group`, applied to the popped coordinate `vw`: relabel `vw` from
`gid` to `newgid` on the grid, add it to the new group, and scan its
neighbours.  Returns the new grid together with the scan result. -/
def flood_step (size gid newgid : Nat) (stones : Nat → Nat → Intersection)
    (old rest : List (Nat × Nat)) (g : Group) (vw : Nat × Nat) :
    (Nat → Nat → Intersection) × List (Nat × Nat) × List (Nat × Nat) × Group :=
  let stones' := fun a c =>
    if a = vw.1 ∧ c = vw.2 then
      (match stones vw.1 vw.2 with
       | .Stone col id => if id = gid then .Stone col newgid else .Stone col id
         -- the source's pattern guard `id == gid`; other ids are
         -- `unreachable!()` and modelled as unchanged
       | .Empty => .Empty)  -- `unreachable!()` in the source
    else stones a c
  (stones', scan_nbrs stones' (Board.neighbours vw.1 vw.2 size) old rest
    (g.add_stone vw.1 vw.2))

/-- The inner `while !to_loop.is_empty()` of `split_group`, structurally
recursive on a fuel argument so that it evaluates inside the kernel.  The
worklist `to_loop` is a stack (`DList::push`/`pop` act on the same end).
Each iteration strictly decreases `old.length + tl.length`
(`flood_fuel_old_le`, `scan_nbrs_length`), so with the fuel chosen by
`flood_loop` below the 0-fuel arm is never reached
(`flood_loop_cons` certifies the intended recurrence). -/
def flood_fuel (size gid newgid : Nat) :
    Nat → (Nat → Nat → Intersection) → List (Nat × Nat) → List (Nat × Nat) → Group →
    (Nat → Nat → Intersection) × List (Nat × Nat) × Group
  | _, stones, old, [], g => (stones, old, g)
  | 0, stones, old, _ :: _, g => (stones, old, g)
  | fuel + 1, stones, old, vw :: rest, g =>
    let r := flood_step size gid newgid stones old rest g vw
    flood_fuel size gid newgid fuel r.1 r.2.1 r.2.2.1 r.2.2.2

/-- The inner flood-fill loop, with the fuel instantiated at its exact
termination measure. -/
def flood_loop (size gid newgid : Nat) (stones : Nat → Nat → Intersection)
    (old tl : List (Nat × Nat)) (g : Group) :
    (Nat → Nat → Intersection) × List (Nat × Nat) × Group :=
  flood_fuel size gid newgid (old.length + tl.length) stones old tl g

theorem flood_fuel_old_le (size gid newgid : Nat) :
    ∀ (fuel : Nat) (stones : Nat → Nat → Intersection) (old tl : List (Nat × Nat))
      (g : Group),
      (flood_fuel size gid newgid fuel stones old tl g).2.1.length ≤
        old.length + tl.length := by
  intro fuel
  induction fuel with
  | zero =>
    intro stones old tl g
    cases tl <;> simp [flood_fuel]
  | succ n ih =>
    intro stones old tl g
    cases tl with
    | nil => simp [flood_fuel]
    | cons vw rest =>
      simp only [flood_fuel]
      refine le_trans (le_trans (ih _ _ _ _) (scan_nbrs_length _ _ _ _ _)) ?_
      simp only [List.length_cons]
      omega

theorem flood_fuel_stable (size gid newgid : Nat) :
    ∀ (fuel : Nat) (stones : Nat → Nat → Intersection) (old tl : List (Nat × Nat))
      (g : Group), old.length + tl.length ≤ fuel →
      flood_fuel size gid newgid (fuel + 1) stones old tl g =
        flood_fuel size gid newgid fuel stones old tl g := by
  intro fuel
  induction fuel with
  | zero =>
    intro stones old tl g h
    cases tl with
    | nil => rfl
    | cons vw rest => simp only [List.length_cons] at h; omega
  | succ n ih =>
    intro stones old tl g h
    cases tl with
    | nil => rfl
    | cons vw rest =>
      show flood_fuel size gid newgid (n + 1 + 1) stones old (vw :: rest) g =
        flood_fuel size gid newgid (n + 1) stones old (vw :: rest) g
      simp only [flood_fuel]
      apply ih
      refine le_trans (scan_nbrs_length _ _ _ _ _) ?_
      simp only [List.length_cons] at h
      omega

theorem flood_fuel_adequate (size gid newgid : Nat)
    (fuel : Nat) (stones : Nat → Nat → Intersection) (old tl : List (Nat × Nat))
    (g : Group) (h : old.length + tl.length ≤ fuel) :
    flood_fuel size gid newgid fuel stones old tl g =
      flood_loop size gid newgid stones old tl g := by
  obtain ⟨d, rfl⟩ : ∃ d, fuel = (old.length + tl.length) + d :=
    ⟨fuel - (old.length + tl.length), by omega⟩
  clear h
  induction d with
  | zero => rfl
  | succ n ih =>
    rw [show old.length + tl.length + (n + 1) = (old.length + tl.length + n) + 1 from rfl,
      flood_fuel_stable size gid newgid _ stones old tl g (by omega), ih]

/-- `flood_loop` satisfies the loop's defining recurrence: the fuel in its
definition is only a termination device and never runs out. -/
theorem flood_loop_cons (size gid newgid : Nat) (stones : Nat → Nat → Intersection)
    (old rest : List (Nat × Nat)) (g : Group) (vw : Nat × Nat) :
    flood_loop size gid newgid stones old (vw :: rest) g =
      (let r := flood_step size gid newgid stones old rest g vw
       flood_loop size gid newgid r.1 r.2.1 r.2.2.1 r.2.2.2) := by
  show flood_fuel size gid newgid (old.length + (rest.length + 1)) stones old (vw :: rest) g = _
  rw [show old.length + (rest.length + 1) = (old.length + rest.length) + 1 from rfl]
  simp only [flood_fuel]
  exact flood_fuel_adequate size gid newgid _ _ _ _ _
    (le_trans (scan_nbrs_length _ _ _ _ _) le_rfl)

/-- The body of one iteration of the outer `while !oldstones.is_empty()`
of `split_group`, applied to the minimum remaining stone `xy`
(`iter().next()` on a `TreeSet` yields the minimum, i.e. the head of the
sorted list): open a fresh group for `xy`, relabel it, seed the flood fill
with its neighbours, and run the fill.  In the source the fresh group is
inserted into the table first and then mutated in place through a
`find_mut` reference; since the fill never reads the table, inserting the
placeholder first and then storing the completed group at the same key
gives the same final state. -/
def split_step (size gid : Nat) (stones : Nat → Nat → Intersection)
    (groups : List (Nat × Group)) (rest : List (Nat × Nat)) (xy : Nat × Nat) :
    (Nat → Nat → Intersection) × List (Nat × Group) × List (Nat × Nat) :=
  let newgid := next_gid_of groups
  let groups' := gmapInsert groups newgid Group.new
  let stones' := fun a c =>
    if a = xy.1 ∧ c = xy.2 then
      (match stones xy.1 xy.2 with
       | .Stone col id => if id = gid then .Stone col newgid else .Stone col id
         -- the source's pattern guard `id == gid`; other ids are
         -- `unreachable!()` and modelled as unchanged
       | .Empty => .Empty)  -- `unreachable!()` in the source
    else stones a c
  let r := scan_nbrs stones' (Board.neighbours xy.1 xy.2 size) rest []
    (Group.new.add_stone xy.1 xy.2)
  let fr := flood_loop size gid newgid stones' r.1 r.2.1 r.2.2
  (fr.1, gmapInsert groups' newgid fr.2.2, fr.2.1)

/-- The outer `while !oldstones.is_empty()` of `split_group`, structurally
recursive on a fuel argument; each iteration strictly shrinks `oldstones`,
so with the fuel chosen by `split_loop` below the 0-fuel arm is never
reached (`split_loop_cons` certifies the intended recurrence). -/
def split_fuel (size gid : Nat) :
    Nat → (Nat → Nat → Intersection) → List (Nat × Group) → List (Nat × Nat) →
    (Nat → Nat → Intersection) × List (Nat × Group)
  | _, stones, groups, [] => (stones, groups)
  | 0, stones, groups, _ :: _ => (stones, groups)
  | fuel + 1, stones, groups, xy :: rest =>
    let r := split_step size gid stones groups rest xy
    split_fuel size gid fuel r.1 r.2.1 r.2.2

/-- The outer splitting loop, with the fuel instantiated at its exact
termination measure. -/
def split_loop (size gid : Nat) (stones : Nat → Nat → Intersection)
    (groups : List (Nat × Group)) (old : List (Nat × Nat)) :
    (Nat → Nat → Intersection) × List (Nat × Group) :=
  split_fuel size gid old.length stones groups old

theorem split_step_old_le (size gid : Nat) (stones : Nat → Nat → Intersection)
    (groups : List (Nat × Group)) (rest : List (Nat × Nat)) (xy : Nat × Nat) :
    (split_step size gid stones groups rest xy).2.2.length ≤ rest.length := by
  refine le_trans (flood_fuel_old_le _ _ _ _ _ _ _ _) ?_
  refine le_trans (scan_nbrs_length _ _ _ _ _) ?_
  simp

theorem split_fuel_stable (size gid : Nat) :
    ∀ (fuel : Nat) (stones : Nat → Nat → Intersection) (groups : List (Nat × Group))
      (old : List (Nat × Nat)), old.length ≤ fuel →
      split_fuel size gid (fuel + 1) stones groups old =
        split_fuel size gid fuel stones groups old := by
  intro fuel
  induction fuel with
  | zero =>
    intro stones groups old h
    cases old with
    | nil => rfl
    | cons xy rest => simp only [List.length_cons] at h; omega
  | succ n ih =>
    intro stones groups old h
    cases old with
    | nil => rfl
    | cons xy rest =>
      show split_fuel size gid (n + 1 + 1) stones groups (xy :: rest) =
        split_fuel size gid (n + 1) stones groups (xy :: rest)
      simp only [split_fuel]
      apply ih
      refine le_trans (split_step_old_le _ _ _ _ _ _) ?_
      simp only [List.length_cons] at h
      omega

theorem split_fuel_adequate (size gid : Nat)
    (fuel : Nat) (stones : Nat → Nat → Intersection) (groups : List (Nat × Group))
    (old : List (Nat × Nat)) (h : old.length ≤ fuel) :
    split_fuel size gid fuel stones groups old =
      split_loop size gid stones groups old := by
  obtain ⟨d, rfl⟩ : ∃ d, fuel = old.length + d := ⟨fuel - old.length, by omega⟩
  clear h
  induction d with
  | zero => rfl
  | succ n ih =>
    rw [show old.length + (n + 1) = (old.length + n) + 1 from rfl,
      split_fuel_stable size gid _ stones groups old (by omega), ih]

/-- `split_loop` satisfies the loop's defining recurrence: the fuel in its
definition is only a termination device and never runs out. -/
theorem split_loop_cons (size gid : Nat) (stones : Nat → Nat → Intersection)
    (groups : List (Nat × Group)) (rest : List (Nat × Nat)) (xy : Nat × Nat) :
    split_loop size gid stones groups (xy :: rest) =
      (let r := split_step size gid stones groups rest xy
       split_loop size gid r.1 r.2.1 r.2.2) := by
  show split_fuel size gid (rest.length + 1) stones groups (xy :: rest) = _
  simp only [split_fuel]
  exact split_fuel_adequate size gid _ _ _ _ (split_step_old_le _ _ _ _ _ _)

namespace Board

/-- `Board::split_group`: empty the removed stone's cell, pop its group,
and rebuild the remaining stones' connected components. -/
def split_group (b : Board) (gid : Nat) (unput : Nat × Nat) : Board :=
  let b := b.setStone unput.1 unput.2 .Empty
  let oldstones := ssetRemove (gmapGet b.groups gid).dismantle unput
  let b := { b with groups := gmapRemove b.groups gid }
  let r := split_loop b.size gid b.stones b.groups oldstones
  { b with stones := r.1, groups := r.2 }

/-- The group id stored at a cell, as read by the source's
`match self.stones[..] { Stone(_, gid) => gid, _ => unreachable!() }`
(the `Empty` arm panics in the source; the model returns 0). -/
def gidAt (b : Board) (x y : Nat) : Nat :=
  match b.stones x y with
  | .Stone _ g => g
  | .Empty => 0

/-- The colour of the stone at a cell, if any (an observable used by the
claims; group ids carry no game meaning). -/
def colourAt (b : Board) (x y : Nat) : Option Colour :=
  match b.stones x y with
  | .Stone c _ => some c
  | .Empty => none

/-- The inline `match player { White => Black, Black => White }` of
`Board::undo` (the colour of the stones to restore). -/
def opposite : Colour → Colour
  | White => Black
  | Black => White

/-- The `// restore removed stones` loop of `Board::undo`: re-place each
captured group's stones under a fresh id, and re-insert the group with
`(x,y)` added to its stored liberties. -/
def undo_restore (removedcolor : Colour) (x y : Nat) (removed : List Group)
    (b : Board) : Board :=
  removed.foldl (fun b grp =>
    let newgid := next_gid_of b.groups
    let b := grp.stones.foldl
      (fun b vw => b.setStone vw.1 vw.2 (.Stone removedcolor newgid)) b
    { b with groups := gmapInsert b.groups newgid (grp.add_liberty x y) }) b

/-- The `// check if last move was a ko` match of `Board::undo`
(`self.history.back()`): a `Put` top recomputes `current_ko`; a `Pass` top
or an empty history falls into the `_ => {}` arm and leaves `current_ko`
as it is. -/
def undo_set_ko (b : Board) : Board :=
  match b.history with
  | m2 :: _ =>
    match m2.move with
    | .Put v w =>
      if m2.removed.length = 1 ∧ (m2.removed.headD Group.new).stone_count = 1 ∧
          (gmapGet b.groups (b.gidAt v w)).liberty_count = 1 then
        { b with current_ko := (m2.removed.headD Group.new).stones.headD (0, 0) }
      else
        { b with current_ko := (0, 0) }
    | .Pass => b
  | [] => b

/-- `Board::undo` -/
def undo (b : Board) : Bool × Board :=
  match b.history with
  | [] => (false, b)
  | mv :: rest =>
    let b := { b with history := rest }
    match mv.move with
    | .Pass => (true, b)
    | .Put x y =>
      let oldgid := b.gidAt x y  -- `unreachable!()` if the cell is empty
      let b := b.split_group oldgid (x, y)
      let removedcolor := opposite mv.player
      (true, undo_set_ko (undo_restore removedcolor x y mv.removed b))

/-- `Board::remove_liberty`: remove `(kx,ky)` from the liberties of the
group owning the stone at `(x,y)`; if the group dies, capture it — empty
its cells and, for each vacated cell, walk its neighbours and call
`add_liberty(a, b)` on every other group found there.  (Note: the source
passes the neighbour's own coordinates `(a,b)` to `add_liberty`, not the
vacated cell `(v,w)`.) -/
def remove_liberty (b : Board) (x y kx ky : Nat) : Board × Option Group :=
  match b.stones x y with
  | .Empty => (b, none)
  | .Stone _ gid =>
    let b := { b with groups := gmapModify b.groups gid (fun g => g.remove_liberty kx ky) }
    if (gmapGet b.groups gid).is_dead then
      let grp := gmapGet b.groups gid
      let b := { b with groups := gmapRemove b.groups gid }
      let b := grp.stones.foldl (fun b vw =>
        let b := b.setStone vw.1 vw.2 .Empty
        (neighbours vw.1 vw.2 b.size).foldl (fun b ab =>
          match b.stones ab.1 ab.2 with
          | .Stone _ grpid =>
            if grpid ≠ gid then
              { b with groups := gmapModify b.groups grpid (fun g => g.add_liberty ab.1 ab.2) }
            else b
          | .Empty => b) b) b
      (b, some grp)
    else (b, none)

/-- `Board::fuse_groups`: the larger group (by stone count) absorbs the
smaller; stones of the absorbed group are relabelled on the grid. -/
def fuse_groups (b : Board) (x1 y1 x2 y2 : Nat) : Board :=
  match b.stones x1 y1, b.stones x2 y2 with
  | .Stone _ g1, .Stone _ g2 =>
    if g1 = g2 then b  -- the source's pattern guard `g1 != g2` fails: return
    else
      let gids := if (gmapGet b.groups g1).stone_count > (gmapGet b.groups g2).stone_count
        then (g1, g2) else (g2, g1)
      let b := (gmapGet b.groups gids.2).stones.foldl (fun b vw =>
        match b.stones vw.1 vw.2 with
        | .Stone col _ => b.setStone vw.1 vw.2 (.Stone col gids.1)
        | .Empty => b  -- `unreachable!()` in the source
        ) b
      let oldgroup := gmapGet b.groups gids.2
      let b := { b with groups := gmapRemove b.groups gids.2 }
      { b with groups := gmapModify b.groups gids.1 (fun g => g.absorb oldgroup) }
  | _, _ => b

/-- The first neighbour scan of `play`: every opposing neighbouring group
loses `(x,y)` as a liberty; groups that die are captured and collected (in
visit order) into `killed`. -/
def play_kill (player : Colour) (x y : Nat) (b : Board) : Board × List Group :=
  (neighbours x y b.size).foldl (fun acc ab =>
    match acc.1.stones ab.1 ab.2 with
    | .Stone col _ =>
      if col ≠ player then
        match acc.1.remove_liberty ab.1 ab.2 x y with
        | (b, some grp) => (b, acc.2 ++ [grp])
        | (b, none) => (b, acc.2)
      else acc
    | .Empty => acc) (b, [])

/-- The `alive` scan of `play` (run only when nothing was captured): the
move is alive if some neighbour is empty, or some same-colour neighbouring
group has more than one recorded liberty. -/
def play_alive (player : Colour) (x y : Nat) (b : Board) : Bool :=
  (neighbours x y b.size).foldl (fun alive ab =>
    alive || (match b.stones ab.1 ab.2 with
      | .Empty => true
      | .Stone col gid => col == player && (gmapGet b.groups gid).liberty_count > 1)) false

/-- The `// does this stone have liberties ?` scan of `play`: every empty
neighbour of `(x,y)` becomes a liberty of the new group `gid`. -/
def play_add_libs (x y gid : Nat) (b : Board) : Board :=
  (neighbours x y b.size).foldl (fun b ab =>
    match b.stones ab.1 ab.2 with
    | .Empty => { b with groups := gmapModify b.groups gid (fun g => g.add_liberty ab.1 ab.2) }
    | .Stone _ _ => b) b

/-- The `// fuse groups` scan of `play`. -/
def play_fuse (player : Colour) (x y : Nat) (b : Board) : Board :=
  (neighbours x y b.size).foldl (fun b ab =>
    match b.stones ab.1 ab.2 with
    | .Stone col _ => if col = player then b.fuse_groups x y ab.1 ab.2 else b
    | .Empty => b) b

/-- The `// count dead stones` loop of `play`: a White play adds to
`black_dead`, a Black play adds to `white_dead`. -/
def play_count_dead (player : Colour) (killed : List Group) (b : Board) : Board :=
  killed.foldl (fun b grp =>
    match player with
    | White => { b with black_dead := b.black_dead + grp.stone_count }
    | Black => { b with white_dead := b.white_dead + grp.stone_count }) b

/-- The `// check ko` step of `play`: if exactly one one-stone group was
killed and the group now containing `(x,y)` has exactly one stone (its
liberties are not consulted), `current_ko` becomes the captured stone's
coordinate; otherwise it is cleared. -/
def play_set_ko (x y : Nat) (killed : List Group) (b : Board) : Board :=
  if killed.length = 1 ∧ (killed.headD Group.new).stone_count = 1 ∧
      (gmapGet b.groups (b.gidAt x y)).stone_count = 1 then
    { b with current_ko := (killed.headD Group.new).stones.headD (0, 0) }
  else
    { b with current_ko := (0, 0) }

/-- The committed tail of `play`: record the new stone's empty neighbours
as liberties, fuse same-colour neighbouring groups, add captured stones to
the opposing colour's dead counter, recompute `current_ko`, and push the
move onto the history. -/
def play_finish (player : Colour) (x y gid : Nat) (killed : List Group) (b : Board) : Board :=
  let b := play_add_libs x y gid b
  let b := play_fuse player x y b
  let b := play_count_dead player killed b
  let b := play_set_ko x y killed b
  { b with history := ⟨player, .Put x y, killed⟩ :: b.history }

/-- `Board::play` -/
def play (b : Board) (player : Colour) (x y : Nat) : Bool × Board :=
  if b.stones x y ≠ .Empty ∨ (x, y) = b.current_ko then
    -- move is not possible
    (false, b)
  else
    let gid := next_gid_of b.groups
    let b := b.setStone x y (.Stone player gid)
    let b := { b with groups := gmapInsert b.groups gid (Group.new.add_stone x y) }
    let kb := play_kill player x y b
    if kb.2.length = 0 ∧ play_alive player x y kb.1 = false then
      -- we should not have played this: take the stone back and drop its
      -- group (the liberties already removed from opposing neighbouring
      -- groups are not restored by the source)
      let b := kb.1.setStone x y .Empty
      (false, { b with groups := gmapRemove b.groups gid })
    else
      (true, play_finish player x y gid kb.2 kb.1)

/-- Whether a coordinate is inside the fixed 25×25 backing array; the very
first statement of `Board::play` indexes `self.stones[x-1][y-1]`, which in
the source panics (integer underflow or array out of bounds) exactly when
this predicate fails. -/
def inBoundsMax (x y : Nat) : Prop :=
  1 ≤ x ∧ x ≤ board_maxsize ∧ 1 ≤ y ∧ y ≤ board_maxsize

instance (x y : Nat) : Decidable (inBoundsMax x y) := by
  unfold inBoundsMax; infer_instance

/-- `Board::play` together with its indexing behaviour: the call faults
(`Except.error`) instead of returning when a coordinate is outside the
backing array, and otherwise behaves as `play`. -/
def play_checked (b : Board) (player : Colour) (x y : Nat) :
    Except Unit (Bool × Board) :=
  if inBoundsMax x y then .ok (b.play player x y) else .error ()

/-- The group of the stone at `(x,y)` (an observable: the stone's recorded
group id looked up in the group table). -/
def groupAt (b : Board) (x y : Nat) : Group :=
  gmapGet b.groups (b.gidAt x y)

/-- The play at `(x,y)` is rejected *on ko grounds*: the cell is empty (so
the `occupied` disjunct of `play`'s guard cannot fire) while `(x,y)`
equals the active ko coordinate (so the guard fires on its ko disjunct
and `play` returns false without touching the board). -/
def koRejects (b : Board) (x y : Nat) : Prop :=
  b.stones x y = .Empty ∧ (x, y) = b.current_ko

instance (b : Board) (x y : Nat) : Decidable (b.koRejects x y) := by
  unfold koRejects; infer_instance

end Board

/-- A driver call (§6: the external driver only issues `play`, `pass` and
`undo` between size changes). -/
inductive Op where
  | play (player : Colour) (x y : Nat)
  | pass (player : Colour)
  | undo
  deriving DecidableEq, Repr

/-- Run a sequence of driver calls from a board, and count the successful
`play` calls, the `pass` calls and the successful `undo` calls. -/
def runCount : Board → List Op → Board × Nat × Nat × Nat
  | b, [] => (b, 0, 0, 0)
  | b, .play player x y :: rest =>
    let r := b.play player x y
    let t := runCount r.2 rest
    (t.1, (if r.1 then 1 else 0) + t.2.1, t.2.2.1, t.2.2.2)
  | b, .pass player :: rest =>
    let t := runCount (b.pass player) rest
    (t.1, t.2.1, 1 + t.2.2.1, t.2.2.2)
  | b, .undo :: rest =>
    let r := b.undo
    let t := runCount r.2 rest
    (t.1, t.2.1, t.2.2.1, (if r.1 then 1 else 0) + t.2.2.2)

/-! ### Concrete boards used by the claims -/

/-- A freshly cleared 5×5 board. -/
def board5 : Board := (Board.new.resize 5).2

/-- Spec §8's concrete scenario, just before the capture: White at (2,2),
then Black plays (2,1), (1,2) and (3,2). -/
def crossBefore : Board :=
  let b := (board5.play White 2 2).2
  let b := (b.play Black 2 1).2
  let b := (b.play Black 1 2).2
  (b.play Black 3 2).2

/-- Spec §8's concrete scenario: Black's fourth play at (2,3) captures the
White stone at (2,2). -/
def crossBoard : Board := (crossBefore.play Black 2 3).2

/-- Two separate one-stone White groups touching the empty corner (1,1) of
the 5×5 board: a Black play at (1,1) is a suicide that captures nothing. -/
def suicideSetup : Board := ((board5.play White 2 1).2.play White 1 2).2

/-- A genuine simple-ko shape on the 5×5 board: Black at (2,1), (1,2),
(2,3); White at (3,1), (4,2), (3,3) and finally (2,2). -/
def koSetup : Board :=
  let b := (board5.play Black 2 1).2
  let b := (b.play Black 1 2).2
  let b := (b.play Black 2 3).2
  let b := (b.play White 3 1).2
  let b := (b.play White 4 2).2
  let b := (b.play White 3 3).2
  (b.play White 2 2).2

/-- Black's play at (3,2) captures the single White stone at (2,2); the
capturing stone forms a one-stone group, so the ko coordinate becomes
(2,2). -/
def koBoard : Board := (koSetup.play Black 3 2).2

/-- A capture whose immediately preceding history entry is a pass:
White (2,2), Black (2,1), (1,2), (3,2), a White pass, then Black's capture
at (2,3). -/
def passUnderBoard : Board :=
  let b := (board5.play White 2 2).2
  let b := (b.play Black 2 1).2
  let b := (b.play Black 1 2).2
  let b := (b.play Black 3 2).2
  ((b.pass White).play Black 2 3).2

/-- Black (1,1) is captured by White's second play: the group table ends
with keys [1, 2], so key 0 is free while the table is non-empty. -/
def gidBoard : Board :=
  (((board5.play Black 1 1).2.play White 2 1).2.play White 1 2).2

/-- A default `Move` used only as the `headD` fallback in statements about
non-empty histories. -/
def noMove : Move := ⟨Black, .Pass, []⟩

/-! ### Preservation lemmas

Each mutating step of `play`/`undo` touches only some fields of the board;
these lemmas record the fields it leaves alone. -/

theorem foldl_preserves {α β γ : Type _} (proj : β → γ) (f : β → α → β)
    (hf : ∀ b a, proj (f b a) = proj b) :
    ∀ (l : List α) (b : β), proj (l.foldl f b) = proj b := by
  intro l
  induction l with
  | nil => intro b; rfl
  | cons a rest ih => intro b; rw [List.foldl_cons, ih, hf]

namespace Board

theorem remove_liberty_history (b : Board) (x y kx ky : Nat) :
    ((b.remove_liberty x y kx ky).1).history = b.history := by
  unfold remove_liberty
  rcases hs : b.stones x y with ⟨c, gid⟩ | _
  · dsimp only
    split
    · refine foldl_preserves Board.history _ ?_ _ _
      intro b vw
      refine Eq.trans (foldl_preserves Board.history _ ?_ _ _) rfl
      intro b ab
      rcases ht : b.stones ab.1 ab.2 with ⟨c2, g2⟩ | _
      · dsimp only; split <;> rfl
      · rfl
    · rfl
  · rfl

theorem play_kill_history (player : Colour) (x y : Nat) (b : Board) :
    (play_kill player x y b).1.history = b.history := by
  unfold play_kill
  refine foldl_preserves (fun acc : Board × List Group => acc.1.history) _ ?_ _ _
  intro acc ab
  rcases hs : acc.1.stones ab.1 ab.2 with ⟨c, g⟩ | _
  · dsimp only
    split
    · have hr := remove_liberty_history acc.1 ab.1 ab.2 x y
      rcases hm : acc.1.remove_liberty ab.1 ab.2 x y with ⟨b', og⟩
      rw [hm] at hr
      cases og <;> exact hr
    · rfl
  · rfl

theorem fuse_groups_history (b : Board) (x1 y1 x2 y2 : Nat) :
    (b.fuse_groups x1 y1 x2 y2).history = b.history := by
  unfold fuse_groups
  rcases h1 : b.stones x1 y1 with ⟨c1, g1⟩ | _ <;>
    rcases h2 : b.stones x2 y2 with ⟨c2, g2⟩ | _ <;> try rfl
  dsimp only
  split
  · rfl
  · show (List.foldl _ b _).history = b.history
    refine foldl_preserves Board.history _ ?_ _ _
    intro b vw
    rcases ht : b.stones vw.1 vw.2 with ⟨c, g⟩ | _ <;> rfl

theorem play_add_libs_history (x y gid : Nat) (b : Board) :
    (play_add_libs x y gid b).history = b.history := by
  refine foldl_preserves Board.history _ ?_ _ _
  intro b ab
  rcases ht : b.stones ab.1 ab.2 with ⟨c, g⟩ | _ <;> rfl

theorem play_fuse_history (player : Colour) (x y : Nat) (b : Board) :
    (play_fuse player x y b).history = b.history := by
  refine foldl_preserves Board.history _ ?_ _ _
  intro b ab
  rcases ht : b.stones ab.1 ab.2 with ⟨c, g⟩ | _
  · dsimp only
    split
    · exact fuse_groups_history _ _ _ _ _
    · rfl
  · rfl

theorem play_count_dead_history (player : Colour) (killed : List Group) (b : Board) :
    (play_count_dead player killed b).history = b.history := by
  refine foldl_preserves Board.history _ ?_ _ _
  intro b g
  cases player <;> rfl

theorem play_set_ko_history (x y : Nat) (killed : List Group) (b : Board) :
    (play_set_ko x y killed b).history = b.history := by
  unfold play_set_ko; split <;> rfl

theorem play_set_ko_groups (x y : Nat) (killed : List Group) (b : Board) :
    (play_set_ko x y killed b).groups = b.groups := by
  unfold play_set_ko; split <;> rfl

theorem play_set_ko_stones (x y : Nat) (killed : List Group) (b : Board) :
    (play_set_ko x y killed b).stones = b.stones := by
  unfold play_set_ko; split <;> rfl

theorem play_finish_history (player : Colour) (x y gid : Nat) (killed : List Group)
    (b : Board) :
    (play_finish player x y gid killed b).history =
      (⟨player, .Put x y, killed⟩ : Move) :: b.history := by
  show (⟨player, .Put x y, killed⟩ : Move) ::
    (play_set_ko x y killed (play_count_dead player killed
      (play_fuse player x y (play_add_libs x y gid b)))).history = _
  rw [play_set_ko_history, play_count_dead_history, play_fuse_history,
    play_add_libs_history]

theorem split_group_history (b : Board) (gid : Nat) (unput : Nat × Nat) :
    (b.split_group gid unput).history = b.history := rfl

theorem split_group_ko (b : Board) (gid : Nat) (unput : Nat × Nat) :
    (b.split_group gid unput).current_ko = b.current_ko := rfl

theorem undo_restore_history (c : Colour) (x y : Nat) (removed : List Group)
    (b : Board) :
    (undo_restore c x y removed b).history = b.history := by
  refine foldl_preserves Board.history _ ?_ _ _
  intro b grp
  show (List.foldl _ b _).history = b.history
  refine foldl_preserves Board.history _ ?_ _ _
  intro b vw
  rfl

theorem undo_restore_ko (c : Colour) (x y : Nat) (removed : List Group)
    (b : Board) :
    (undo_restore c x y removed b).current_ko = b.current_ko := by
  refine foldl_preserves Board.current_ko _ ?_ _ _
  intro b grp
  show (List.foldl _ b _).current_ko = b.current_ko
  refine foldl_preserves Board.current_ko _ ?_ _ _
  intro b vw
  rfl

theorem undo_set_ko_history (b : Board) : (undo_set_ko b).history = b.history := by
  unfold undo_set_ko
  rcases hh : b.history with _ | ⟨m2, r2⟩
  · exact hh
  · dsimp only
    split
    · split <;> rfl
    · exact hh

theorem undo_set_ko_groups (b : Board) : (undo_set_ko b).groups = b.groups := by
  unfold undo_set_ko
  rcases hh : b.history with _ | ⟨m2, r2⟩
  · rfl
  · dsimp only
    split
    · split <;> rfl
    · rfl

theorem undo_set_ko_stones (b : Board) : (undo_set_ko b).stones = b.stones := by
  unfold undo_set_ko
  rcases hh : b.history with _ | ⟨m2, r2⟩
  · rfl
  · dsimp only
    split
    · split <;> rfl
    · rfl

theorem gidAt_ext (b b' : Board) (h : b.stones = b'.stones) (x y : Nat) :
    b.gidAt x y = b'.gidAt x y := by
  unfold gidAt; rw [h]

theorem groupAt_ext (b b' : Board) (hg : b.groups = b'.groups)
    (hs : b.stones = b'.stones) (x y : Nat) :
    b.groupAt x y = b'.groupAt x y := by
  unfold groupAt; rw [hg, gidAt_ext b b' hs]

theorem play_finish_groups (player : Colour) (x y gid : Nat) (killed : List Group)
    (b : Board) :
    (play_finish player x y gid killed b).groups =
      (play_count_dead player killed (play_fuse player x y
        (play_add_libs x y gid b))).groups := by
  show (play_set_ko x y killed _).groups = _
  exact play_set_ko_groups _ _ _ _

theorem play_finish_stones (player : Colour) (x y gid : Nat) (killed : List Group)
    (b : Board) :
    (play_finish player x y gid killed b).stones =
      (play_count_dead player killed (play_fuse player x y
        (play_add_libs x y gid b))).stones := by
  show (play_set_ko x y killed _).stones = _
  exact play_set_ko_stones _ _ _ _

theorem play_finish_current_ko (player : Colour) (x y gid : Nat) (killed : List Group)
    (b : Board) :
    (play_finish player x y gid killed b).current_ko =
      (play_set_ko x y killed (play_count_dead player killed (play_fuse player x y
        (play_add_libs x y gid b)))).current_ko := rfl

/-- The ko value committed by `play`, phrased against the final board's own
observables: `current_ko` is the captured stone's coordinate exactly when
one one-stone group was killed and the group now holding `(x,y)` is a
single stone. -/
theorem play_finish_ko (player : Colour) (x y gid : Nat) (killed : List Group)
    (b : Board) :
    (play_finish player x y gid killed b).current_ko =
      (if killed.length = 1 ∧ (killed.headD Group.new).stone_count = 1 ∧
          ((play_finish player x y gid killed b).groupAt x y).stone_count = 1 then
        (killed.headD Group.new).stones.headD (0, 0)
      else (0, 0)) := by
  rw [play_finish_current_ko]
  unfold groupAt
  rw [play_finish_groups,
    gidAt_ext (play_finish player x y gid killed b) _ (play_finish_stones _ _ _ _ _ _) x y]
  unfold play_set_ko
  rw [apply_ite Board.current_ko]

theorem undo_set_ko_of_history_nil (b : Board) (h : b.history = []) :
    undo_set_ko b = b := by
  unfold undo_set_ko; rw [h]

theorem undo_set_ko_of_pass (b : Board) (m2 : Move) (r2 : List Move)
    (h : b.history = m2 :: r2) (hm : m2.move = .Pass) :
    undo_set_ko b = b := by
  unfold undo_set_ko; rw [h]; dsimp only; rw [hm]

/-- The ko value committed by `undo` when the new top of history is a
`Put`, phrased against the resulting board's own observables. -/
theorem undo_set_ko_of_put (b : Board) (m2 : Move) (r2 : List Move) (v w : Nat)
    (h : b.history = m2 :: r2) (hm : m2.move = .Put v w) :
    (undo_set_ko b).current_ko =
      (if m2.removed.length = 1 ∧ (m2.removed.headD Group.new).stone_count = 1 ∧
          ((undo_set_ko b).groupAt v w).liberty_count = 1 then
        (m2.removed.headD Group.new).stones.headD (0, 0)
      else (0, 0)) := by
  rw [groupAt_ext (undo_set_ko b) b (undo_set_ko_groups b) (undo_set_ko_stones b) v w]
  unfold groupAt
  conv_lhs => unfold undo_set_ko
  rw [h]
  dsimp only
  rw [hm]
  dsimp only
  rw [apply_ite Board.current_ko]

/-- Unfolding `undo` on a board whose top history entry is a `Put`. -/
theorem undo_put_eq (b : Board) (mv : Move) (rest : List Move) (x y : Nat)
    (hh : b.history = mv :: rest) (hm : mv.move = .Put x y) :
    b.undo = (true, undo_set_ko (undo_restore (opposite mv.player) x y mv.removed
      (Board.split_group { b with history := rest }
        (Board.gidAt { b with history := rest } x y) (x, y)))) := by
  unfold undo
  rw [hh]
  dsimp only
  rw [hm]

theorem play_history_length (b : Board) (player : Colour) (x y : Nat) :
    (b.play player x y).2.history.length =
      b.history.length + (if (b.play player x y).1 then 1 else 0) := by
  unfold play
  split
  · simp
  · dsimp only
    split
    · simp [Board.setStone, play_kill_history]
    · simp [Board.setStone, play_finish_history, play_kill_history]

theorem pass_history_length (b : Board) (player : Colour) :
    (b.pass player).history.length = b.history.length + 1 := rfl

theorem undo_history_length (b : Board) :
    (b.undo).2.history.length + (if (b.undo).1 then 1 else 0) = b.history.length := by
  unfold undo
  rcases hh : b.history with _ | ⟨mv, rest⟩
  · simpa using hh
  · dsimp only
    split
    · simp
    · simp [undo_set_ko_history, undo_restore_history, split_group_history]

theorem undo_of_history_nil (b : Board) (h : b.history = []) : b.undo = (false, b) := by
  unfold undo
  rw [h]

end Board

theorem runCount_accounting : ∀ (ops : List Op) (b : Board),
    (runCount b ops).1.history.length + (runCount b ops).2.2.2 =
      b.history.length + ((runCount b ops).2.1 + (runCount b ops).2.2.1) := by
  intro ops
  induction ops with
  | nil => intro b; simp [runCount]
  | cons op rest ih =>
    intro b
    cases op with
    | play player x y =>
      have hp := Board.play_history_length b player x y
      have ht := ih (b.play player x y).2
      simp only [runCount]
      omega
    | pass player =>
      have hp := Board.pass_history_length b player
      have ht := ih (b.pass player)
      simp only [runCount]
      omega
    | undo =>
      have hu := Board.undo_history_length b
      have ht := ih (b.undo).2
      simp only [runCount]
      omega

/-- The scanning loop of `next_gid`, characterised: starting from `last`
over strictly ascending keys that are all ≥ `last`, it returns the
smallest integer greater than `last` that is not a key. -/
theorem next_gid_go_spec : ∀ (keys : List Nat) (last : Nat),
    keys.Pairwise (· < ·) → (∀ k ∈ keys, last ≤ k) →
    (last < Board.next_gid_go last keys ∧
     Board.next_gid_go last keys ∉ keys ∧
     ∀ p, last < p → p < Board.next_gid_go last keys → p ∈ keys) := by
  intro keys
  induction keys with
  | nil =>
    intro last _ _
    refine ⟨Nat.lt_succ_self last, by simp, ?_⟩
    intro p h1 h2
    simp only [Board.next_gid_go] at h2
    omega
  | cons i rest ih =>
    intro last hp hge
    have hpi : ∀ k ∈ rest, i < k := (List.pairwise_cons.mp hp).1
    have hprest : rest.Pairwise (· < ·) := (List.pairwise_cons.mp hp).2
    have hli : last ≤ i := hge i (by simp)
    simp only [Board.next_gid_go]
    split
    · rename_i hgt
      refine ⟨Nat.lt_succ_self last, ?_, ?_⟩
      · intro hmem
        rcases List.mem_cons.mp hmem with h | h
        · omega
        · have := hpi _ h; omega
      · intro p h1 h2; omega
    · rename_i hng
      obtain ⟨ha, hb, hc⟩ := ih i hprest (fun k hk => Nat.le_of_lt (hpi k hk))
      refine ⟨by omega, ?_, ?_⟩
      · intro hmem
        rcases List.mem_cons.mp hmem with h | h
        · omega
        · exact hb h
      · intro p h1 h2
        by_cases hpq : p = i
        · simp [hpq]
        · have h3 : i < p := by omega
          exact List.mem_cons_of_mem _ (hc p h3 h2)

/-! ### Claim theorems -/

/-- **C1** (code bug, evaluated at the failing input).  In spec §8's 5×5
scenario, `undo` after Black's capturing play at (2,3) returns true and
restores the grid occupancy ((2,2) is White again, (2,3) is empty) and the
ko, but the observable state before the play is *not* restored:
`white_dead` stays 1 (the source's `undo` never touches the dead-stone
counters, so it is not reset to 0 as the claim states), and the Black
group at (2,1) keeps the liberty set [(1,1),(2,1),(3,1)] produced during
the capture instead of its pre-play value [(1,1),(3,1)]. -/
theorem c1_undo_does_not_restore_state :
    (crossBoard.undo).1 = true ∧
    (crossBoard.undo).2.colourAt 2 2 = some White ∧
    (crossBoard.undo).2.colourAt 2 3 = none ∧
    (crossBoard.undo).2.get_current_ko = none ∧
    crossBefore.white_dead = 0 ∧
    crossBoard.white_dead = 1 ∧
    (crossBoard.undo).2.white_dead = 1 ∧
    (crossBefore.groupAt 2 1).liberties = [(1, 1), (3, 1)] ∧
    ((crossBoard.undo).2.groupAt 2 1).liberties = [(1, 1), (2, 1), (3, 1)] := by
  decide

/-- **C2** (code bug, evaluated at the failing input).  In spec §8's 5×5
scenario Black's play at (2,3) captures the one-stone White group at
(2,2): the cell becomes empty and `white_dead` increases by the group's
stone count, as claimed.  But the vacated coordinate is *not* added as a
liberty of the neighbouring Black group at (2,1) that touches it;
instead that group gains its own stone's coordinate (2,1) as a bogus
"liberty" (`remove_liberty` calls `add_liberty(a, b)` with the
neighbour's coordinates instead of the vacated cell `(v, w)`). -/
theorem c2_capture_liberty_wrong_coordinate :
    crossBoard.stones 2 2 = .Empty ∧
    (crossBefore.groupAt 2 2).stones = [(2, 2)] ∧
    crossBoard.white_dead = crossBefore.white_dead + (crossBefore.groupAt 2 2).stone_count ∧
    (crossBoard.history.headD noMove).removed = [⟨[(2, 2)], []⟩] ∧
    (2, 2) ∈ Board.neighbours 2 1 crossBoard.size ∧
    (2, 2) ∉ (crossBoard.groupAt 2 1).liberties ∧
    (2, 1) ∈ (crossBoard.groupAt 2 1).liberties ∧
    (crossBoard.groupAt 2 1).liberties = [(1, 1), (2, 1), (3, 1)] := by
  decide

/-- **C3** (code bug, evaluated at the failing input).  A Black play at the
empty corner (1,1), whose two neighbours are one-stone White groups with
spare liberties, captures nothing and is rejected as suicide (`play`
returns false), and the stone and its group are rolled back — but the
liberty (1,1) that was removed from both White neighbouring groups during
the kill scan is never restored, so the board is *not* unchanged: both
White groups permanently lose the liberty (1,1) even though it is empty
again. -/
theorem c3_suicide_rejection_leaks_liberties :
    (suicideSetup.play Black 1 1).1 = false ∧
    (suicideSetup.play Black 1 1).2.stones 1 1 = .Empty ∧
    (suicideSetup.play Black 1 1).2.history = suicideSetup.history ∧
    (suicideSetup.groupAt 2 1).liberties = [(1, 1), (2, 2), (3, 1)] ∧
    (suicideSetup.groupAt 1 2).liberties = [(1, 1), (1, 3), (2, 2)] ∧
    ((suicideSetup.play Black 1 1).2.groupAt 2 1).liberties = [(2, 2), (3, 1)] ∧
    ((suicideSetup.play Black 1 1).2.groupAt 1 2).liberties = [(1, 3), (2, 2)] := by
  decide

/-- **C4** (counterexample).  In the genuine simple-ko position `koBoard`
(Black just captured the single White stone at (2,2) with the one-stone,
one-liberty group at (3,2)), a White pass does *not* lift the ko
restriction: `pass` never touches `current_ko`, so White's recapture at
(2,2) right after the pass is still rejected on ko grounds, contradicting
the claim that after any pass the play there is no longer ko-rejected. -/
theorem c4_pass_does_not_lift_ko :
    (koBoard.pass White).koRejects 2 2 ∧
    ((koBoard.pass White).play White 2 2).1 = false := by
  decide

/-- **C4** (amended claim).  In the simple-ko position `koBoard` (exactly
one one-stone White group was captured, and the capturing group at (3,2)
is a single stone): White's immediate recapture at (2,2) is rejected on
ko grounds; after one intervening successful Black play elsewhere the ko
restriction is lifted (the coordinate is no longer ko-rejected); but a
pass by either colour leaves the ko restriction in force. -/
theorem c4_simple_ko_behaviour :
    (koBoard.history.headD noMove).removed.length = 1 ∧
    ((koBoard.history.headD noMove).removed.headD Group.new).stone_count = 1 ∧
    (koBoard.groupAt 3 2).stone_count = 1 ∧
    koBoard.current_ko = (2, 2) ∧
    koBoard.koRejects 2 2 ∧
    (koBoard.play White 2 2).1 = false ∧
    (koBoard.play Black 5 5).1 = true ∧
    ¬ ((koBoard.play Black 5 5).2.koRejects 2 2) ∧
    (koBoard.pass White).koRejects 2 2 ∧
    (koBoard.pass Black).koRejects 2 2 ∧
    ((koBoard.pass White).play White 2 2).1 = false := by
  decide

/-- **C5** (counterexample).  In spec §8's 5×5 scenario, Black's capture
at (2,3) sets the ko coordinate to (2,2) even though the capturing group
has five recorded liberties, not one: `play` tests the group's *stone*
count, never its liberty count, so the claimed "exactly one liberty"
condition does not govern the ko recomputation. -/
theorem c5_ko_set_without_single_liberty :
    crossBoard.get_current_ko = some (2, 2) ∧
    (crossBoard.groupAt 2 3).stone_count = 1 ∧
    (crossBoard.groupAt 2 3).liberty_count = 5 ∧
    ¬ (crossBoard.groupAt 2 3).liberty_count = 1 := by
  decide

/-- **C6** (counterexample).  Undoing Black's capture at (2,3) in
`passUnderBoard` leaves a `Pass` as the new top of history; the claim says
the ko coordinate must then be cleared, but the source's
`match self.history.back()` has no arm for this case and leaves
`current_ko` untouched: it remains (2,2). -/
theorem c6_undo_keeps_ko_over_pass :
    (passUnderBoard.undo).1 = true ∧
    ((passUnderBoard.undo).2.history.headD noMove).move = .Pass ∧
    passUnderBoard.current_ko = (2, 2) ∧
    (passUnderBoard.undo).2.current_ko = (2, 2) ∧
    (passUnderBoard.undo).2.get_current_ko = some (2, 2) := by
  decide

/-- **C7** (counterexample).  After spec §8's capture scenario,
`clear()` empties the grid, the group table and the history, but leaves
`white_dead = 1` and the ko coordinate (2,2) in place (the source's
`clear` touches neither the counters nor `current_ko`); `resize 9`
(which calls `clear`) keeps them as well. -/
theorem c7_clear_keeps_deads_and_ko :
    crossBoard.white_dead = 1 ∧
    crossBoard.current_ko = (2, 2) ∧
    crossBoard.clear.history = [] ∧
    crossBoard.clear.groups = [] ∧
    crossBoard.clear.white_dead = 1 ∧
    crossBoard.clear.get_current_ko = some (2, 2) ∧
    (crossBoard.resize 9).2.white_dead = 1 ∧
    (crossBoard.resize 9).2.get_current_ko = some (2, 2) := by
  decide

/-- **C8** (counterexample).  A reachable board (Black (1,1) captured by
White (2,1) and (1,2)) whose group table has exactly the keys [1, 2]:
id 0 is not a key, yet `next_gid` returns 3, not the smallest free
non-negative integer 0. -/
theorem c8_next_gid_not_smallest :
    gidBoard.groups.map Prod.fst = [1, 2] ∧
    0 ∉ gidBoard.groups.map Prod.fst ∧
    gidBoard.next_gid = 3 ∧
    ¬ gidBoard.next_gid = 0 := by
  decide

/-- **C5** (amended claim).  After every successful
`play(player, x, y)`, the pushed history entry records the captured
groups, and the ko coordinate equals the captured stone's coordinate
exactly when one single-stone group was captured and the group now
containing `(x,y)` consists of exactly one *stone*; the group's liberty
count is not consulted. -/
theorem c5_ko_recomputed_from_stone_count (b b' : Board) (player : Colour)
    (x y : Nat) (hp : b.play player x y = (true, b')) :
    ∃ killed rest,
      b'.history = (⟨player, .Put x y, killed⟩ : Move) :: rest ∧
      b'.current_ko =
        (if killed.length = 1 ∧ (killed.headD Group.new).stone_count = 1 ∧
            (b'.groupAt x y).stone_count = 1 then
          (killed.headD Group.new).stones.headD (0, 0)
        else (0, 0)) := by
  unfold Board.play at hp
  split at hp
  · exact absurd (congrArg Prod.fst hp) (by simp)
  · dsimp only at hp
    split at hp
    · exact absurd (congrArg Prod.fst hp) (by simp)
    · have hb' := congrArg Prod.snd hp
      dsimp only at hb'
      subst hb'
      exact ⟨_, _, Board.play_finish_history _ _ _ _ _ _,
        Board.play_finish_ko _ _ _ _ _ _⟩

/-- Witness for `c5_ko_recomputed_from_stone_count`, at Black's first play
(1,1) on the fresh 5×5 board. -/
theorem c5_ko_recomputed_witness :
    ∃ killed rest,
      ((board5.play Black 1 1).2).history = (⟨Black, .Put 1 1, killed⟩ : Move) :: rest ∧
      ((board5.play Black 1 1).2).current_ko =
        (if killed.length = 1 ∧ (killed.headD Group.new).stone_count = 1 ∧
            (((board5.play Black 1 1).2).groupAt 1 1).stone_count = 1 then
          (killed.headD Group.new).stones.headD (0, 0)
        else (0, 0)) :=
  c5_ko_recomputed_from_stone_count board5 (board5.play Black 1 1).2 Black 1 1
    Prod.mk.eta.symm

/-- **C6** (amended claim).  Undoing a `Put` move succeeds, pops exactly
that move, and recomputes the ko from the new top of history: if that top
is itself a `Put` whose recorded capture is a single one-stone group and
the group now at that move's coordinate has exactly one liberty, the ko
is the captured stone's coordinate, and it is cleared for any other
`Put`; but when the new top is a `Pass`, or the history has become empty,
the ko coordinate is left exactly as it was (not cleared). -/
theorem c6_undo_ko_recomputation (b : Board) (mv : Move) (rest : List Move)
    (x y : Nat) (hh : b.history = mv :: rest) (hm : mv.move = .Put x y) :
    (b.undo).1 = true ∧
    (b.undo).2.history = rest ∧
    (rest = [] → (b.undo).2.current_ko = b.current_ko) ∧
    (∀ m2 r2, rest = m2 :: r2 → m2.move = .Pass →
      (b.undo).2.current_ko = b.current_ko) ∧
    (∀ m2 r2 v w, rest = m2 :: r2 → m2.move = .Put v w →
      (b.undo).2.current_ko =
        (if m2.removed.length = 1 ∧ (m2.removed.headD Group.new).stone_count = 1 ∧
            ((b.undo).2.groupAt v w).liberty_count = 1 then
          (m2.removed.headD Group.new).stones.headD (0, 0)
        else (0, 0))) := by
  rw [Board.undo_put_eq b mv rest x y hh hm]
  refine ⟨rfl, ?_, ?_, ?_, ?_⟩
  · show (Board.undo_set_ko _).history = rest
    simp [Board.undo_set_ko_history, Board.undo_restore_history,
      Board.split_group_history]
  · intro h
    subst h
    show (Board.undo_set_ko _).current_ko = b.current_ko
    rw [Board.undo_set_ko_of_history_nil _ (by
      simp [Board.undo_restore_history, Board.split_group_history])]
    rw [Board.undo_restore_ko, Board.split_group_ko]
  · intro m2 r2 h hpm
    subst h
    show (Board.undo_set_ko _).current_ko = b.current_ko
    rw [Board.undo_set_ko_of_pass _ m2 r2 (by
      simp [Board.undo_restore_history, Board.split_group_history]) hpm]
    rw [Board.undo_restore_ko, Board.split_group_ko]
  · intro m2 r2 v w h hpm
    subst h
    exact Board.undo_set_ko_of_put _ m2 r2 v w (by
      simp [Board.undo_restore_history, Board.split_group_history]) hpm

/-- Witness for `c6_undo_ko_recomputation`: undoing Black's single play at
(1,1) on the fresh 5×5 board leaves the empty history and an unchanged ko
coordinate. -/
theorem c6_undo_ko_witness :
    (((board5.play Black 1 1).2).undo).1 = true ∧
    (((board5.play Black 1 1).2).undo).2.current_ko =
      ((board5.play Black 1 1).2).current_ko :=
  ⟨(c6_undo_ko_recomputation (board5.play Black 1 1).2 ⟨Black, .Put 1 1, []⟩ [] 1 1
      (by decide) rfl).1,
   (c6_undo_ko_recomputation (board5.play Black 1 1).2 ⟨Black, .Put 1 1, []⟩ [] 1 1
      (by decide) rfl).2.2.1 rfl⟩

/-- **C7** (amended claim).  `clear()` empties the grid (every cell of the
25×25 array), the group table and the history, and keeps the size — but
leaves both dead-stone counters and the ko coordinate untouched;
`resize n` succeeds exactly for `0 < n ≤ 25`, performing the same reset
and setting the size to `n`, and any other `n` is rejected with the board
left untouched; in both cases the dead counters and the ko survive. -/
theorem c7_clear_resize_effect (b : Board) (n : Nat) :
    b.clear.history = [] ∧
    b.clear.groups = [] ∧
    b.clear.size = b.size ∧
    b.clear.white_dead = b.white_dead ∧
    b.clear.black_dead = b.black_dead ∧
    b.clear.current_ko = b.current_ko ∧
    (b.clear.stones = fun x y =>
      if 1 ≤ x ∧ x ≤ board_maxsize ∧ 1 ≤ y ∧ y ≤ board_maxsize then .Empty
      else b.stones x y) ∧
    (b.resize n).1 = decide (0 < n ∧ n ≤ board_maxsize) ∧
    (b.resize n).2.size = (if 0 < n ∧ n ≤ board_maxsize then n else b.size) ∧
    (b.resize n).2.history = (if 0 < n ∧ n ≤ board_maxsize then [] else b.history) ∧
    (b.resize n).2.groups = (if 0 < n ∧ n ≤ board_maxsize then [] else b.groups) ∧
    (b.resize n).2.white_dead = b.white_dead ∧
    (b.resize n).2.black_dead = b.black_dead ∧
    (b.resize n).2.current_ko = b.current_ko := by
  refine ⟨rfl, rfl, rfl, rfl, rfl, rfl, rfl, ?_, ?_, ?_, ?_, ?_, ?_, ?_⟩ <;>
    · unfold Board.resize
      split
      · rename_i h; simp [h, Board.clear]
      · rename_i h; simp [h]

/-- **C8** (amended claim).  On a group table with strictly ascending keys,
`next_gid` returns 0 when the table is empty; on a non-empty table it
returns a *positive* non-key below which every positive integer is a key —
i.e. the smallest free id when 0 is treated as always in use.  (Id 0 is
never handed out again while the table is non-empty, even when free.) -/
theorem c8_next_gid_allocation (gs : List (Nat × Group))
    (hs : (gs.map Prod.fst).Pairwise (· < ·)) :
    (gs = [] → next_gid_of gs = 0) ∧
    (gs ≠ [] → 0 < next_gid_of gs) ∧
    next_gid_of gs ∉ gs.map Prod.fst ∧
    (∀ p, 0 < p → p < next_gid_of gs → p ∈ gs.map Prod.fst) := by
  unfold next_gid_of
  rcases gs with _ | ⟨kv, rest⟩
  · refine ⟨fun _ => rfl, fun h => absurd rfl h, by simp, ?_⟩
    intro p hp0 hpl
    simp only [List.isEmpty_nil, if_true] at hpl
    omega
  · obtain ⟨ha, hb, hc⟩ :=
      next_gid_go_spec ((kv :: rest).map Prod.fst) 0 hs (fun k _ => Nat.zero_le k)
    split
    · rename_i hemp; simp at hemp
    · exact ⟨fun h => by simp at h, fun _ => ha, hb, fun p hp0 hpl => hc p hp0 hpl⟩

/-- Witness for `c8_next_gid_allocation`, at a two-entry table with keys
[1, 2]. -/
theorem c8_next_gid_witness :
    0 < next_gid_of [(1, Group.new), (2, Group.new)] ∧
    next_gid_of [(1, Group.new), (2, Group.new)] ∉
      ([(1, Group.new), (2, Group.new)] : List (Nat × Group)).map Prod.fst :=
  ⟨(c8_next_gid_allocation [(1, Group.new), (2, Group.new)] (by decide)).2.1
      (by decide),
   (c8_next_gid_allocation [(1, Group.new), (2, Group.new)] (by decide)).2.2.1⟩

/-- **C9** (confirmed).  For any starting board and any sequence of driver
calls, the history length plus the number of successful `undo`s equals the
starting length plus the successful `play`s plus the `pass`es; each
successful `play` or `pass` appends exactly one move, a successful `undo`
removes exactly one, and `undo` on an empty history returns false with
the board unchanged. -/
theorem c9_history_accounting (b : Board) (ops : List Op) (player : Colour)
    (x y : Nat) :
    ((runCount b ops).1.history.length + (runCount b ops).2.2.2 =
      b.history.length + ((runCount b ops).2.1 + (runCount b ops).2.2.1)) ∧
    ((b.play player x y).2.history.length =
      b.history.length + (if (b.play player x y).1 then 1 else 0)) ∧
    ((b.pass player).history.length = b.history.length + 1) ∧
    ((b.undo).2.history.length + (if (b.undo).1 then 1 else 0) =
      b.history.length) ∧
    (b.history = [] → b.undo = (false, b)) :=
  ⟨runCount_accounting ops b, Board.play_history_length b player x y,
   Board.pass_history_length b player, Board.undo_history_length b,
   Board.undo_of_history_nil b⟩

/-- Witness for `c9_history_accounting`: a play, a pass and an undo from a
fresh board, plus `undo` on the fresh (empty-history) board itself. -/
theorem c9_history_witness :
    ((runCount Board.new [Op.play Black 1 1, Op.pass White, Op.undo]).1.history.length +
        (runCount Board.new [Op.play Black 1 1, Op.pass White, Op.undo]).2.2.2 =
      Board.new.history.length +
        ((runCount Board.new [Op.play Black 1 1, Op.pass White, Op.undo]).2.1 +
          (runCount Board.new [Op.play Black 1 1, Op.pass White, Op.undo]).2.2.1)) ∧
    Board.new.undo = (false, Board.new) :=
  ⟨(c9_history_accounting Board.new [Op.play Black 1 1, Op.pass White, Op.undo]
      Black 1 1).1,
   (c9_history_accounting Board.new [Op.play Black 1 1, Op.pass White, Op.undo]
      Black 1 1).2.2.2.2 rfl⟩

/-- **C10** (confirmed).  `play` never checks its coordinates against the
active size: on the fresh default board (size 19) the play at (20, 20)
returns true and puts a stone outside the playing area; and whenever a
coordinate is outside the fixed 25×25 backing array — component 0 or
greater than 25 — the very first grid access `stones[x-1][y-1]` faults
(modelled by `play_checked` returning `Except.error`) instead of the call
returning false. -/
theorem c10_no_size_bounds_check (b : Board) (player : Colour) (x y : Nat)
    (ho : ¬ Board.inBoundsMax x y) :
    Board.new.size = 19 ∧
    Board.new.size < 20 ∧
    20 ≤ board_maxsize ∧
    (Board.new.play Black 20 20).1 = true ∧
    (Board.new.play Black 20 20).2.colourAt 20 20 = some Black ∧
    Board.new.play_checked Black 20 20 = .ok (Board.new.play Black 20 20) ∧
    b.play_checked player x y = .error () := by
  refine ⟨rfl, by decide, by decide, by decide, by decide, ?_, ?_⟩
  · unfold Board.play_checked
    rw [if_pos (by decide)]
  · unfold Board.play_checked
    rw [if_neg ho]

/-- Witness for `c10_no_size_bounds_check`, at the out-of-array coordinate
(0, 5). -/
theorem c10_no_size_bounds_witness :
    Board.new.play_checked Black 0 5 = .error () :=
  (c10_no_size_bounds_check Board.new Black 0 5 (by decide)).2.2.2.2.2.2

end ClockGo
